import Mathlib

/-!
Verification development for the Age-Gender-Predictor repository.

The development shallowly embeds the two scripts of the repository,
`testing.py` (face alignment, dataset parsing, evaluation metrics) and
`train.py` (k-fold training loop configuration, custom age metric,
checkpoint naming), and proves or refutes the documented properties of
that code.

Conventions of the embedding:
* images are integer pixel grids (height, width, and a pixel function);
* Python strings handled by the filename parser are lists of characters;
* machine floats that only ever hold exact small values are rationals;
* a fallible Python evaluation is an `Except PyErr` value, where `PyErr`
  names the exception class the interpreter would raise;
* the numpy true-division of the metric code is `Option`-valued: division
  by a zero length yields `none` (numpy produces a NaN there, which is
  no defined numeric result).
-/

namespace AgeGender

/-! ### Images (testing.py) -/

/-- A BGR pixel as an exact integer triple. -/
abbrev Pixel := ℕ × ℕ × ℕ

/-- Solid black fill used by resize_image (testing.py line 141: BLACK = [0,0,0]). -/
def BLACK : Pixel := (0, 0, 0)

/-- An image: `h` rows and `w` columns of pixels; `px i j` is the pixel at
row `i`, column `j` (the value at out-of-range coordinates is irrelevant
junk, as in a sampled array view). `h` is `image.shape[0]` and `w` is
`image.shape[1]`. -/
structure Image where
  h : ℕ
  w : ℕ
  px : ℕ → ℕ → Pixel

/-- Embedding of cv2.copyMakeBorder(src, top, bottom, left, right,
cv2.BORDER_CONSTANT, value): a border of constant `value` pixels of the
given widths is added on each side. -/
def copyMakeBorder (img : Image) (top bottom left right : ℕ) (value : Pixel) : Image where
  h := top + img.h + bottom
  w := left + img.w + right
  px := fun i j =>
    if i < top ∨ top + img.h ≤ i ∨ j < left ∨ left + img.w ≤ j then value
    else img.px (i - top) (j - left)

/-- The square canvas built by resize_image before the final resize
(testing.py lines 142-151): when `w < h` the code calls
cv2.copyMakeBorder(image, 0, 0, border, 0, ...) with border = h - w,
whose positional arguments are (top, bottom, left, right); otherwise it
calls cv2.copyMakeBorder(image, border, 0, 0, 0, ...) with border = w - h. -/
def squareCanvas (image : Image) : Image :=
  if image.w < image.h then
    copyMakeBorder image 0 0 (image.h - image.w) 0 BLACK
  else
    copyMakeBorder image (image.w - image.h) 0 0 0 BLACK

/-- Embedding of cv2.resize(img, (size, size), interpolation=cv2.INTER_CUBIC)
(testing.py lines 152-153). Only the output geometry (a size-by-size image
whose content is drawn from the source) is used by the theorems below; the
floating-point bicubic interpolation itself is outside the integer pixel
model, and plain source sampling stands in for the pixel values. -/
def cv2_resize (img : Image) (size : ℕ) : Image where
  h := size
  w := size
  px := fun i j => img.px (i * img.h / size) (j * img.w / size)

/-- Embedding of resize_image (testing.py lines 124-154): pad the image to a
square canvas with black borders, then resize it to (size, size). -/
def resize_image (image : Image) (size : ℕ) : Image :=
  cv2_resize (squareCanvas image) size

/-- Canvas construction following the specification text instead of the code
(spec: padding is added only on one side, right if width < height, top if
height < width). Stated for comparison with `squareCanvas`, which is the
embedding of the source. -/
def squareCanvas_spec (image : Image) : Image :=
  if image.w < image.h then
    copyMakeBorder image 0 0 0 (image.h - image.w) BLACK
  else
    copyMakeBorder image (image.w - image.h) 0 0 0 BLACK

/-- Concrete 2-by-1 image (h = 2, w = 1) with every pixel equal to (7, 7, 7);
a minimal portrait-shaped input for the letterboxing theorems. -/
def sampleTallImage : Image where
  h := 2
  w := 1
  px := fun _ _ => (7, 7, 7)

/-! ### Face alignment (testing.py, get_one_aligned_face) -/

/-- Python exception classes raised by the embedded code. -/
inductive PyErr where
  | typeError
  | nameError
  | indexError
deriving DecidableEq

/-- A dlib rectangle: the detector's bounding box for one face. The
position dictionary built by get_one_aligned_face carries exactly these
four fields. -/
structure Rect where
  left : ℤ
  top : ℤ
  right : ℤ
  bottom : ℤ
deriving DecidableEq

/-- Evaluation of the Python expression `rects == 1` at testing.py line 107,
where `rects` is the dlib.rectangles container returned by the detector: the
container's equality accepts only another rectangles container, so comparing
it with the integer 1 yields False (the comparison falls back to the default
unequal result rather than comparing lengths). -/
def rectanglesEqInt (_ : List Rect) (_ : ℤ) : Bool :=
  false

/-- Python len() applied to a Bool: bool defines no length, so the call
raises TypeError. -/
def pyLenOfBool (_ : Bool) : Except PyErr ℕ :=
  .error .typeError

/-- Embedding of get_one_aligned_face (testing.py lines 73-121). The external
collaborators are passed as arguments: `rects` is the detector's output on the
image and `faceChip` stands for dlib.get_face_chip on the predicted landmark
shape. The source guards the one-face branch with `if len(rects == 1):`, and
its fallback branch calls `resizeImage`, a name that is never defined (the
helper defined in the file is resize_image), which would raise NameError. -/
def get_one_aligned_face (faceChip : Image → Rect → Image) (image : Image)
    (rects : List Rect) (_size : ℕ) : Except PyErr (Image × Rect) :=
  match pyLenOfBool (rectanglesEqInt rects 1) with
  | .error e => .error e
  | .ok n =>
    if n ≠ 0 then
      match rects with
      | r :: _ => .ok (faceChip image r, r)
      | [] => .error .indexError
    else
      .error .nameError

/-! ### Checkpoint filename templates (train.py) -/

/-- One piece of a Keras ModelCheckpoint filename template: either literal
text or a named placeholder with a format specification, filled in from the
epoch number and the logged validation metrics. -/
inductive TmplItem where
  | lit (s : String)
  | field (name fmt : String)
deriving DecidableEq

/-- The checkpoint filename template of train.py line 172 (used for every
model kind except ssrnet), transcribed placeholder by placeholder. -/
def checkpoint_template : List TmplItem :=
  [.lit "trainweight/model.",
   .field "epoch" "02d",
   .lit "-",
   .field "val_loss" ".4f",
   .lit "-",
   .field "val_gender_prediction_acc" ".4f",
   .lit "-",
   .field "val_age_prediction_mae" ".4f",
   .lit ".h5"]

/-- The checkpoint filename template of train.py line 181 (used for the
ssrnet model), transcribed placeholder by placeholder. -/
def ssrnet_checkpoint_template : List TmplItem :=
  [.lit "trainweight/model.",
   .field "epoch" "02d",
   .lit "-",
   .field "val_loss" ".4f",
   .lit "-",
   .field "val_gender_prediction_binary_accuracy" ".4f",
   .lit "-",
   .field "val_age_prediction_mean_absolute_error" ".4f",
   .lit ".h5"]

/-- The (name, format) pairs of the placeholders of a template, in order. -/
def fieldSpecs : List TmplItem → List (String × String)
  | [] => []
  | .lit _ :: rest => fieldSpecs rest
  | .field n f :: rest => (n, f) :: fieldSpecs rest

/-- Whether `pat` occurs as a contiguous run inside `s`. -/
def hasSub (pat : List Char) : List Char → Bool
  | [] => pat.isEmpty
  | c :: rest => pat.isPrefixOf (c :: rest) || hasSub pat rest

/-- Whether any text of a template item mentions the word "fold". -/
def itemMentionsFold : TmplItem → Bool
  | .lit s => hasSub ['f', 'o', 'l', 'd'] s.data
  | .field n f => hasSub ['f', 'o', 'l', 'd'] n.data || hasSub ['f', 'o', 'l', 'd'] f.data

/-! ### Training-call configuration (train.py, fitModel) -/

/-- The batching arguments the fold trainer passes to the external training
primitive (train.py lines 59-69). -/
structure FitCall where
  steps_per_epoch : ℕ
  validation_steps : ℕ
  max_queue_size : ℕ

/-- Embedding of the argument computation of fitModel (train.py lines
54-69): steps_per_epoch = len(trainAge) // (batch_size * GPU),
validation_steps = len(testAge) // (batch_size * GPU),
max_queue_size = int(batch_size * 2). -/
def fitModel (nTrainAge nTestAge batch_size GPU : ℕ) : FitCall where
  steps_per_epoch := nTrainAge / (batch_size * GPU)
  validation_steps := nTestAge / (batch_size * GPU)
  max_queue_size := batch_size * 2

/-! ### Custom age metric (train.py, mae) -/

/-- K.arange(0, n) cast to float32: the class indices as rationals. -/
def kArange (n : ℕ) : List ℚ :=
  List.map Nat.cast (List.range n)

/-- K.sum(K.cast(K.arange(0,101), 'float32') * y, axis=1) on one row of a
batch: the elementwise product of the 101 class indices with the row,
summed. -/
def weightedClassSum (row : List ℚ) : ℚ :=
  ((kArange 101).zipWith (fun a p => a * p) row).sum

/-- Embedding of the custom mae metric (train.py lines 71-73): the batchwise
mean of the absolute difference between the index-weighted sums of the
predicted and the true rows. A batch is a list of rows; the elementwise
tensor subtraction pairs the rows positionally. -/
def mae (y_true y_pred : List (List ℚ)) : ℚ :=
  let diffs := (y_true.zip y_pred).map fun tp => |weightedClassSum tp.2 - weightedClassSum tp.1|
  diffs.sum / (diffs.length : ℚ)

/-- Expectation of a 101-way categorical distribution as the specification
words it: the sum over class index i in 0..100 of i times the probability
assigned to class i. Stated for comparison with the code-side
`weightedClassSum`. -/
def expectation (row : List ℚ) : ℚ :=
  ∑ i ∈ Finset.range 101, (i : ℚ) * row.getD i 0

/-- One-hot 101-way distribution concentrated at class `k`. -/
def oneHot (k : ℕ) : List ℚ :=
  (List.range 101).map fun i => if i = k then 1 else 0

/-! ### Evaluation metrics (testing.py, get_metrics) -/

/-- Numpy true division of a scalar by a length: a zero denominator yields
NaN (no defined numeric result), modelled as `none`. -/
def npDiv (a : ℚ) (n : ℕ) : Option ℚ :=
  if n = 0 then none else some (a / (n : ℚ))

/-- Embedding of get_metrics (testing.py lines 180-195):
gender_acc = (gender_predicted == gender_true).sum() / len(gender_predicted)
counts the positions at which the two arrays agree, and
age_mae = abs(age_predicted - age_true).sum() / len(age_predicted)
sums the elementwise absolute differences; the pair (age_mae, gender_acc)
is returned. Elementwise numpy operations pair the arrays positionally. -/
def get_metrics (age_predicted gender_predicted age_true gender_true : List ℤ) :
    Option ℚ × Option ℚ :=
  let gender_acc :=
    npDiv ((((gender_predicted.zip gender_true).filter fun p => p.1 == p.2).length : ℚ))
      gender_predicted.length
  let age_mae :=
    npDiv (((((age_predicted.zip age_true).map fun p => |p.1 - p.2|).sum : ℤ) : ℚ))
      age_predicted.length
  (age_mae, gender_acc)

/-- Number of positions at which two arrays hold exactly equal values, as the
specification words it: the count of indices below the length at which the
entries agree. -/
def matchCount_spec (a b : List ℤ) : ℕ :=
  ((Finset.range a.length).filter fun i => a.getD i 0 = b.getD i 0).card

/-- Sum of the elementwise absolute differences of two arrays, indexed form
as the specification words it. -/
def absDiffSum_spec (a b : List ℤ) : ℤ :=
  ∑ i ∈ Finset.range a.length, |a.getD i 0 - b.getD i 0|

/-! ### K-fold split (train.py, main) -/

/-- Fold sizes of the scikit-learn KFold splitter for n samples and k splits:
the first n mod k test folds have size n / k + 1 and the remaining ones
n / k (modelled from the library's documented splitting rule; the trainer
calls KFold(n_splits=10, shuffle=True, random_state=1) at train.py line 96). -/
def foldSizes (n k : ℕ) : List ℕ :=
  (List.range k).map fun i => if i < n % k then n / k + 1 else n / k

/-- Cut a list into consecutive chunks of the given sizes. -/
def splitChunks : List ℕ → List ℕ → List (List ℕ)
  | [], _ => []
  | s :: rest, xs => xs.take s :: splitChunks rest (xs.drop s)

/-- The k test index sets produced by the shuffled KFold split: the seeded
shuffle's output `perm` (a permutation of the row indices, fixed by
random_state=1) is cut into k consecutive chunks of the prescribed fold
sizes. -/
def kfoldTestSets (perm : List ℕ) (k : ℕ) : List (List ℕ) :=
  splitChunks (foldSizes perm.length k) perm

/-- A concrete permutation of the indices 0..11, standing in for a seeded
shuffle's output on a 12-row dataset. -/
def samplePerm12 : List ℕ :=
  [5, 0, 11, 3, 7, 1, 9, 2, 10, 4, 8, 6]

/-! ### Filename parsing (testing.py, make_db) -/

/-- A Python string, modelled as its list of characters. -/
abbrev PyStr := List Char

/-- Python str.split(sep) for a one-character separator: splits at every
occurrence of the separator, keeping empty pieces, and always returns at
least one piece. -/
def pySplit (sep : Char) : PyStr → List PyStr
  | [] => [[]]
  | c :: rest =>
    let r := pySplit sep rest
    if c = sep then [] :: r
    else (c :: r.headD []) :: r.tail

/-- One step of decimal accumulation for `pyInt`. -/
def pyIntAux : Option ℕ → Char → Option ℕ
  | none, _ => none
  | some a, c => if c.isDigit then some (a * 10 + (c.toNat - 48)) else none

/-- Python int() on the digit strings cut out of a filename: the decimal
value of a non-empty all-digit string, and no result otherwise. -/
def pyInt (s : PyStr) : Option ℕ :=
  if s.isEmpty then none else s.foldl pyIntAux (some 0)

/-- Age recorded by make_db for one path (testing.py line 59):
int(path.split('/')[-1].split('_')[0]). -/
def make_db_age (path : PyStr) : Option ℕ :=
  pyInt ((pySplit '_' ((pySplit '/' path).getLastD [])).headD [])

/-- Gender recorded by make_db for one path (testing.py line 60):
int(path.split('/')[-1].split('_')[1]) ^ 1, the XOR remap the code applies
because the UTKface dataset uses the opposite gender code. For a filename
lacking a second underscore segment the model yields no result (Python
would raise an IndexError there). -/
def make_db_gender (path : PyStr) : Option ℕ :=
  (pyInt ((pySplit '_' ((pySplit '/' path).getLastD [])).getD 1 [])).map fun g => g ^^^ 1

/-- Concrete UTKface-style path UTKface/part1/25_0_x.jpg as a character
list. -/
def samplePath : PyStr :=
  ['U', 'T', 'K', 'f', 'a', 'c', 'e', '/', 'p', 'a', 'r', 't', '1', '/',
   '2', '5', '_', '0', '_', 'x', '.', 'j', 'p', 'g']

/-! ## Theorems -/

/-- C1: the claim says get_one_aligned_face returns the aligned face patch
with the detector's box when exactly one face is detected and the
letterboxed resize with the full-image box otherwise. The code instead
raises TypeError on every input: line 107 evaluates `len(rects == 1)`,
applying len() to the boolean result of comparing the rectangles container
with the integer 1 (and its fallback branch would call the undefined name
resizeImage). This theorem evaluates the embedded function: every call
errors with TypeError, whatever the detector returned. -/
theorem C1_get_one_aligned_face_raises_typeError (faceChip : Image → Rect → Image)
    (image : Image) (rects : List Rect) (size : ℕ) :
    get_one_aligned_face faceChip image rects size = .error .typeError := rfl

/-- C2 counterexample: the claim places the black padding on the right side
when width < height. On the concrete 1-wide, 2-high image the code's canvas
(squareCanvas, from the source) is black in column 0 and keeps the content
in column 1 — the padding is on the left — while the canvas built from the
spec's words (squareCanvas_spec) is the reverse, and the two differ. -/
theorem C2_right_padding_counterexample :
    sampleTallImage.w < sampleTallImage.h ∧
    (squareCanvas sampleTallImage).px 0 0 = BLACK ∧
    (squareCanvas sampleTallImage).px 0 1 = (7, 7, 7) ∧
    (squareCanvas_spec sampleTallImage).px 0 0 = (7, 7, 7) ∧
    (squareCanvas_spec sampleTallImage).px 0 1 = BLACK ∧
    squareCanvas sampleTallImage ≠ squareCanvas_spec sampleTallImage :=
  ⟨by decide, by decide, by decide, by decide, by decide,
   fun hEq => absurd (congrArg (fun im => im.px 0 0) hEq) (by decide)⟩

/-- C2 (amended): resize_image always returns a size-by-size image; for
non-square inputs the square canvas built before resizing adds solid black
padding on exactly one side — the left when width < height, the top when
height < width — keeping the original content intact beside it, and for
already-square inputs the canvas leaves every pixel of the image unchanged. -/
theorem C2_resize_image_letterbox (image : Image) (size : ℕ) :
    (resize_image image size).h = size ∧ (resize_image image size).w = size ∧
    (image.w < image.h →
      (squareCanvas image).h = image.h ∧ (squareCanvas image).w = image.h ∧
      (∀ i j, j < image.h - image.w → (squareCanvas image).px i j = BLACK) ∧
      (∀ i j, i < image.h → j < image.w →
        (squareCanvas image).px i (image.h - image.w + j) = image.px i j)) ∧
    (image.h < image.w →
      (squareCanvas image).h = image.w ∧ (squareCanvas image).w = image.w ∧
      (∀ i j, i < image.w - image.h → (squareCanvas image).px i j = BLACK) ∧
      (∀ i j, i < image.h → j < image.w →
        (squareCanvas image).px (image.w - image.h + i) j = image.px i j)) ∧
    (image.h = image.w →
      (squareCanvas image).h = image.h ∧ (squareCanvas image).w = image.w ∧
      ∀ i j, i < image.h → j < image.w → (squareCanvas image).px i j = image.px i j) := by
  refine ⟨rfl, rfl, fun hw => ⟨?_, ?_, ?_, ?_⟩, fun hh => ⟨?_, ?_, ?_, ?_⟩,
    fun hsq => ⟨?_, ?_, ?_⟩⟩
  · simp only [squareCanvas, if_pos hw, copyMakeBorder]; omega
  · simp only [squareCanvas, if_pos hw, copyMakeBorder]; omega
  · intro i j hj
    simp only [squareCanvas, if_pos hw, copyMakeBorder]
    rw [if_pos (by omega)]
  · intro i j hi hj
    simp only [squareCanvas, if_pos hw, copyMakeBorder]
    rw [if_neg (by omega)]
    have e1 : i - 0 = i := by omega
    have e2 : image.h - image.w + j - (image.h - image.w) = j := by omega
    rw [e1, e2]
  · simp only [squareCanvas, if_neg (by omega : ¬ image.w < image.h), copyMakeBorder]; omega
  · simp only [squareCanvas, if_neg (by omega : ¬ image.w < image.h), copyMakeBorder]; omega
  · intro i j hi
    simp only [squareCanvas, if_neg (by omega : ¬ image.w < image.h), copyMakeBorder]
    rw [if_pos (by omega)]
  · intro i j hi hj
    simp only [squareCanvas, if_neg (by omega : ¬ image.w < image.h), copyMakeBorder]
    rw [if_neg (by omega)]
    have e1 : image.w - image.h + i - (image.w - image.h) = i := by omega
    have e2 : j - 0 = j := by omega
    rw [e1, e2]
  · simp only [squareCanvas, if_neg (by omega : ¬ image.w < image.h), copyMakeBorder]; omega
  · simp only [squareCanvas, if_neg (by omega : ¬ image.w < image.h), copyMakeBorder]; omega
  · intro i j hi hj
    simp only [squareCanvas, if_neg (by omega : ¬ image.w < image.h), copyMakeBorder]
    rw [if_neg (by omega)]
    have e1 : i - (image.w - image.h) = i := by omega
    have e2 : j - 0 = j := by omega
    rw [e1, e2]

/-- C2 witness: the amended letterboxing theorem applied to the concrete
1-wide, 2-high image at target size 140. -/
theorem C2_resize_image_letterbox_witness :
    sampleTallImage.w < sampleTallImage.h ∧
    (resize_image sampleTallImage 140).h = 140 ∧
    (squareCanvas sampleTallImage).px 0 0 = BLACK :=
  ⟨by decide, (C2_resize_image_letterbox sampleTallImage 140).1,
   ((C2_resize_image_letterbox sampleTallImage 140).2.2.1 (by decide)).2.2.1 0 0 (by decide)⟩

/-- C3 counterexample: the claim says the checkpoint filename encodes the
fold number. No literal piece and no placeholder of either checkpoint
template mentions the word fold, so the rendered filename cannot carry the
fold number (the Keras callback substitutes exactly the listed placeholders
from the epoch number and the validation logs). -/
theorem C3_checkpoint_fold_counterexample :
    (checkpoint_template.all fun item => !itemMentionsFold item) = true ∧
    (ssrnet_checkpoint_template.all fun item => !itemMentionsFold item) = true := by
  constructor <;> decide

/-- C3 (amended): the checkpoint filename encodes the epoch number as a
two-digit integer and the validation loss, the gender validation metric and
the age MAE validation metric each to 4 decimal places — and nothing else;
in particular the fold number is not encoded. -/
theorem C3_checkpoint_fields :
    fieldSpecs checkpoint_template =
      [("epoch", "02d"), ("val_loss", ".4f"),
       ("val_gender_prediction_acc", ".4f"), ("val_age_prediction_mae", ".4f")] ∧
    fieldSpecs ssrnet_checkpoint_template =
      [("epoch", "02d"), ("val_loss", ".4f"),
       ("val_gender_prediction_binary_accuracy", ".4f"),
       ("val_age_prediction_mean_absolute_error", ".4f")] :=
  ⟨rfl, rfl⟩

/-- C4: the steps_per_epoch argument the fold trainer passes to the
training call is the floor of the training-set size over batch_size times
the GPU replica count; together with the division identity this says the
remainder rows beyond the last full step are dropped each epoch, and on a
9-row fold with batch size 4 and 1 replica the value is 2 with 1 row
dropped. -/
theorem C4_steps_per_epoch (nTrain nTest b g : ℕ) (hb : 1 ≤ b) (hg : 1 ≤ g) :
    (fitModel nTrain nTest b g).steps_per_epoch = nTrain / (b * g) ∧
    (fitModel nTrain nTest b g).steps_per_epoch * (b * g) + nTrain % (b * g) = nTrain ∧
    nTrain % (b * g) < b * g ∧
    (fitModel 9 1 4 1).steps_per_epoch = 2 ∧
    9 - (fitModel 9 1 4 1).steps_per_epoch * (4 * 1) = 1 := by
  refine ⟨rfl, ?_, Nat.mod_lt nTrain (Nat.mul_pos hb hg), rfl, rfl⟩
  rw [Nat.mul_comm]
  exact Nat.div_add_mod nTrain (b * g)

/-- C4 witness: the steps-per-epoch theorem at the concrete 9-row fold with
batch size 4 and 1 replica. -/
theorem C4_steps_per_epoch_witness :
    1 ≤ 4 ∧ 1 ≤ 1 ∧
      ((fitModel 9 1 4 1).steps_per_epoch = 9 / (4 * 1) ∧
       (fitModel 9 1 4 1).steps_per_epoch * (4 * 1) + 9 % (4 * 1) = 9 ∧
       9 % (4 * 1) < 4 * 1 ∧
       (fitModel 9 1 4 1).steps_per_epoch = 2 ∧
       9 - (fitModel 9 1 4 1).steps_per_epoch * (4 * 1) = 1) :=
  ⟨by decide, by decide, C4_steps_per_epoch 9 1 4 1 (by decide) (by decide)⟩

/-- Positional elementwise aggregation equals index-wise aggregation: the sum
of a function mapped over the zip of two equal-length lists is the sum of the
function over the entries at each index. -/
theorem zipPairSum {M : Type} [AddCommMonoid M] (f : ℤ × ℤ → M) :
    ∀ (a b : List ℤ), a.length = b.length →
      ((a.zip b).map f).sum = ∑ i ∈ Finset.range a.length, f (a.getD i 0, b.getD i 0) := by
  intro a
  induction a with
  | nil => intro b _; simp
  | cons x xs ih =>
    intro b hb
    cases b with
    | nil => simp at hb
    | cons y ys =>
      simp only [List.zip_cons_cons, List.map_cons, List.sum_cons, List.length_cons]
      rw [Finset.sum_range_succ']
      simp only [List.getD_cons_succ, List.getD_cons_zero]
      rw [ih ys (by simpa using hb)]
      exact add_comm _ _

/-- The length of a filtered list as the sum of a 0/1 indicator. -/
theorem filterLengthEqSumIndicator {α : Type} (q : α → Bool) :
    ∀ l : List α, (l.filter q).length = (l.map fun p => if q p then (1 : ℕ) else 0).sum := by
  intro l
  induction l with
  | nil => rfl
  | cons x xs ih =>
    by_cases hx : q x
    · simp [List.filter_cons, hx, ih, Nat.add_comm]
    · simp [List.filter_cons, hx, ih]

/-- Sum of an index-dependent function zipped against an index range. -/
theorem zipWithRangeSum :
    ∀ (xs : List ℚ) (f : ℕ → ℚ → ℚ) (n : ℕ),
      (List.zipWith f (List.range n) xs).sum
        = ∑ i ∈ Finset.range (min n xs.length), f i (xs.getD i 0) := by
  intro xs
  induction xs with
  | nil => intro f n; simp
  | cons x xs ih =>
    intro f n
    cases n with
    | zero => simp
    | succ m =>
      rw [List.range_succ_eq_map]
      simp only [List.zipWith_cons_cons, List.sum_cons]
      rw [List.zipWith_map_left, ih]
      rw [List.length_cons, Nat.succ_min_succ, Finset.sum_range_succ']
      simp only [List.getD_cons_succ, List.getD_cons_zero, Nat.succ_eq_add_one]
      exact add_comm _ _

/-- On a 101-entry row the code's index-weighted sum is exactly the
expectation of the distribution as the specification words it. -/
theorem weightedClassSum_eq_expectation (row : List ℚ) (hrow : row.length = 101) :
    weightedClassSum row = expectation row := by
  unfold weightedClassSum kArange
  rw [List.zipWith_map_left, zipWithRangeSum, hrow, Nat.min_self]
  rfl

/-- Sum of a constant-valued map. -/
theorem sumMapConst {α : Type} (b : ℕ) :
    ∀ l : List α, (l.map fun _ => b).sum = l.length * b := by
  intro l
  induction l with
  | nil => simp
  | cons x xs ih => simp [ih, Nat.succ_mul, Nat.add_comm]

/-- Sum of the stepped fold-size pattern: r values of q + 1 followed by the
rest at q. -/
theorem sumIteRange (q : ℕ) :
    ∀ (k r : ℕ), r ≤ k →
      ((List.range k).map fun i => if i < r then q + 1 else q).sum = k * q + r := by
  intro k
  induction k with
  | zero => intro r hr; simp [Nat.le_zero.mp hr]
  | succ m ih =>
    intro r hr
    rw [List.range_succ, List.map_append, List.sum_append]
    by_cases hrm : r ≤ m
    · rw [ih r hrm]
      simp only [List.map_cons, List.map_nil, List.sum_cons, List.sum_nil]
      rw [if_neg (by omega), Nat.succ_mul]
      omega
    · have hr1 : r = m + 1 := by omega
      subst hr1
      have hmap : (List.range m).map (fun i => if i < m + 1 then q + 1 else q)
          = (List.range m).map (fun _ => q + 1) := by
        apply List.map_congr_left
        intro a ha
        exact if_pos (by have := List.mem_range.mp ha; omega)
      rw [hmap, sumMapConst]
      simp only [List.map_cons, List.map_nil, List.sum_cons, List.sum_nil,
        List.length_range]
      rw [if_pos (by omega), Nat.mul_succ, Nat.succ_mul]
      omega

/-- The KFold fold sizes sum to the number of samples. -/
theorem foldSizes_sum (n k : ℕ) (hk : 0 < k) : (foldSizes n k).sum = n := by
  unfold foldSizes
  rw [sumIteRange (n / k) k (n % k) (Nat.le_of_lt (Nat.mod_lt n hk))]
  exact Nat.div_add_mod n k

/-- Cutting a list into chunks yields one chunk per requested size. -/
theorem splitChunks_length (sizes : List ℕ) :
    ∀ xs : List ℕ, (splitChunks sizes xs).length = sizes.length := by
  induction sizes with
  | nil => intro xs; rfl
  | cons s rest ih => intro xs; simp [splitChunks, ih]

/-- Flattening the chunks returns the consumed prefix of the list. -/
theorem splitChunks_flatten (sizes : List ℕ) :
    ∀ xs : List ℕ, (splitChunks sizes xs).flatten = xs.take sizes.sum := by
  induction sizes with
  | nil => intro xs; rfl
  | cons s rest ih =>
    intro xs
    simp only [splitChunks, List.flatten_cons, List.sum_cons, ih]
    rw [List.take_add]

/-- C5: on batches of 101-way distributions the custom mae metric of the
trainer equals the mean over the batch of the absolute difference between
the expectation of the predicted row and the expectation of the true row,
each expectation being the sum over class index i of i times the
probability at class i. -/
theorem C5_mae_metric_is_expectation_distance (y_true y_pred : List (List ℚ))
    (hlen : y_true.length = y_pred.length) (_hpos : 0 < y_true.length)
    (htrue : (y_true.all fun r => r.length == 101) = true)
    (hpred : (y_pred.all fun r => r.length == 101) = true) :
    mae y_true y_pred
      = ((y_true.zip y_pred).map fun tp => |expectation tp.2 - expectation tp.1|).sum
          / (y_true.length : ℚ) := by
  simp only [List.all_eq_true, beq_iff_eq] at htrue hpred
  have hmap : (y_true.zip y_pred).map (fun tp => |weightedClassSum tp.2 - weightedClassSum tp.1|)
      = (y_true.zip y_pred).map (fun tp => |expectation tp.2 - expectation tp.1|) := by
    apply List.map_congr_left
    intro tp htp
    rw [weightedClassSum_eq_expectation _ (htrue tp.1 (List.of_mem_zip htp).1),
      weightedClassSum_eq_expectation _ (hpred tp.2 (List.of_mem_zip htp).2)]
  simp only [mae, hmap]
  congr 1
  rw [List.length_map, List.length_zip, hlen]
  simp

/-- C5 witness: the expectation-distance theorem on the concrete one-row
batch pairing a one-hot distribution at class 3 with one at class 5. -/
theorem C5_mae_metric_is_expectation_distance_witness :
    [oneHot 3].length = [oneHot 5].length ∧ 0 < [oneHot 3].length ∧
    (([oneHot 3].all fun r => r.length == 101) = true) ∧
    (([oneHot 5].all fun r => r.length == 101) = true) ∧
    mae [oneHot 3] [oneHot 5]
      = (([oneHot 3].zip [oneHot 5]).map fun tp => |expectation tp.2 - expectation tp.1|).sum
          / (([oneHot 3].length : ℕ) : ℚ) :=
  ⟨rfl, by decide, by decide, by decide,
   C5_mae_metric_is_expectation_distance [oneHot 3] [oneHot 5] rfl (by decide)
     (by decide) (by decide)⟩

/-- C6: the gender accuracy returned by get_metrics is the number of
positions at which the predicted and true arrays hold exactly equal values,
divided by the array length; it is 1 on identical arrays and 0 when every
element is inverted (true values in 0/1 and each prediction equal to one
minus the truth). -/
theorem C6_gender_accuracy (agePred genderPred ageTrue genderTrue : List ℤ)
    (hlen : genderPred.length = genderTrue.length) (hpos : 0 < genderPred.length) :
    (get_metrics agePred genderPred ageTrue genderTrue).2
      = some ((matchCount_spec genderPred genderTrue : ℚ) / (genderPred.length : ℚ)) ∧
    (genderPred = genderTrue →
      (get_metrics agePred genderPred ageTrue genderTrue).2 = some 1) ∧
    (((genderPred.zip genderTrue).all fun p =>
        (p.2 == 0 || p.2 == 1) && (p.1 == 1 - p.2)) = true →
      (get_metrics agePred genderPred ageTrue genderTrue).2 = some 0) := by
  have hcount : ((genderPred.zip genderTrue).filter fun p => p.1 == p.2).length
      = matchCount_spec genderPred genderTrue := by
    rw [filterLengthEqSumIndicator, zipPairSum _ _ _ hlen, matchCount_spec,
      Finset.card_filter]
    simp [beq_iff_eq]
  have hacc : (get_metrics agePred genderPred ageTrue genderTrue).2
      = some ((matchCount_spec genderPred genderTrue : ℚ) / (genderPred.length : ℚ)) := by
    simp only [get_metrics, npDiv, if_neg hpos.ne', hcount]
  refine ⟨hacc, ?_, ?_⟩
  · intro hEq
    subst hEq
    have hfull : matchCount_spec genderPred genderPred = genderPred.length := by
      unfold matchCount_spec
      rw [Finset.filter_true_of_mem fun i _ => rfl, Finset.card_range]
    rw [hacc, hfull, div_self (by exact_mod_cast hpos.ne')]
  · intro hinv
    simp only [List.all_eq_true, Bool.and_eq_true, Bool.or_eq_true, beq_iff_eq] at hinv
    have hnil : ((genderPred.zip genderTrue).filter fun p => p.1 == p.2) = [] := by
      rw [List.filter_eq_nil_iff]
      intro p hp
      obtain ⟨hval, hflip⟩ := hinv p hp
      simp only [beq_iff_eq]
      omega
    simp only [get_metrics, npDiv, if_neg hpos.ne', hnil, List.length_nil,
      Nat.cast_zero, zero_div]

/-- C6 witness: the gender-accuracy theorem on the concrete prediction
array 1,0,1,1 against truth 1,0,0,1 — three of the four positions match. -/
theorem C6_gender_accuracy_witness :
    ([1, 0, 1, 1] : List ℤ).length = ([1, 0, 0, 1] : List ℤ).length ∧
    0 < ([1, 0, 1, 1] : List ℤ).length ∧
    (get_metrics [20, 30] [1, 0, 1, 1] [20, 30] [1, 0, 0, 1]).2
      = some ((matchCount_spec [1, 0, 1, 1] [1, 0, 0, 1] : ℚ)
          / (([1, 0, 1, 1] : List ℤ).length : ℚ)) :=
  ⟨rfl, by decide,
   (C6_gender_accuracy [20, 30] [1, 0, 1, 1] [20, 30] [1, 0, 0, 1] rfl (by decide)).1⟩

/-- C7: the age error returned by get_metrics is the mean of the absolute
differences between corresponding elements of the predicted and true age
arrays, and it is 0 on identical arrays. -/
theorem C7_age_mae (agePred genderPred ageTrue genderTrue : List ℤ)
    (hlen : agePred.length = ageTrue.length) (hpos : 0 < agePred.length) :
    (get_metrics agePred genderPred ageTrue genderTrue).1
      = some ((absDiffSum_spec agePred ageTrue : ℚ) / (agePred.length : ℚ)) ∧
    (agePred = ageTrue →
      (get_metrics agePred genderPred ageTrue genderTrue).1 = some 0) := by
  have hsum : ((agePred.zip ageTrue).map fun p => |p.1 - p.2|).sum
      = absDiffSum_spec agePred ageTrue := by
    rw [zipPairSum _ _ _ hlen]
    rfl
  have hmae : (get_metrics agePred genderPred ageTrue genderTrue).1
      = some ((absDiffSum_spec agePred ageTrue : ℚ) / (agePred.length : ℚ)) := by
    simp only [get_metrics, npDiv, if_neg hpos.ne', hsum]
  refine ⟨hmae, fun hEq => ?_⟩
  subst hEq
  have hzero : absDiffSum_spec agePred agePred = 0 := by
    simp [absDiffSum_spec]
  rw [hmae, hzero]
  simp

/-- C7 witness: the age-error theorem on the concrete prediction array
20,30,41 against truth 22,30,38 — the absolute offsets are 2, 0 and 3. -/
theorem C7_age_mae_witness :
    ([20, 30, 41] : List ℤ).length = ([22, 30, 38] : List ℤ).length ∧
    0 < ([20, 30, 41] : List ℤ).length ∧
    (get_metrics [20, 30, 41] [1, 0] [22, 30, 38] [1, 1]).1
      = some ((absDiffSum_spec [20, 30, 41] [22, 30, 38] : ℚ)
          / (([20, 30, 41] : List ℤ).length : ℚ)) :=
  ⟨rfl, by decide,
   (C7_age_mae [20, 30, 41] [1, 0] [22, 30, 38] [1, 1] rfl (by decide)).1⟩

/-- C8: the 10-fold split over any permutation of the row indices produced
by the seeded shuffle yields exactly 10 test index sets that are pairwise
disjoint, are each duplicate-free, and together contain every row index
exactly once (their concatenation is a permutation of the full index
range). The scikit-learn splitter requires at least as many samples as
splits, hence the bound on N. -/
theorem C8_kfold_partition (N : ℕ) (perm : List ℕ)
    (hperm : perm.Perm (List.range N)) (_hN : 10 ≤ N) :
    (kfoldTestSets perm 10).length = 10 ∧
    (kfoldTestSets perm 10).flatten.Perm (List.range N) ∧
    List.Pairwise List.Disjoint (kfoldTestSets perm 10) ∧
    (∀ l ∈ kfoldTestSets perm 10, l.Nodup) := by
  have hflat : (kfoldTestSets perm 10).flatten = perm := by
    rw [kfoldTestSets, splitChunks_flatten, foldSizes_sum _ _ (by omega), List.take_length]
  have hnd : perm.Nodup := hperm.nodup_iff.mpr (List.nodup_range N)
  have hfl_nd : (kfoldTestSets perm 10).flatten.Nodup := by
    rw [hflat]; exact hnd
  obtain ⟨hall, hdisj⟩ := List.nodup_flatten.mp hfl_nd
  refine ⟨?_, ?_, hdisj, hall⟩
  · rw [kfoldTestSets, splitChunks_length, foldSizes, List.length_map, List.length_range]
  · rw [hflat]; exact hperm

/-- C8 witness: the partition theorem on a concrete 12-element permutation
standing in for the seeded shuffle of a 12-row dataset. -/
theorem C8_kfold_partition_witness :
    samplePerm12.Perm (List.range 12) ∧ 10 ≤ 12 ∧
    (kfoldTestSets samplePerm12 10).length = 10 ∧
    (kfoldTestSets samplePerm12 10).flatten.Perm (List.range 12) ∧
    List.Pairwise List.Disjoint (kfoldTestSets samplePerm12 10) :=
  ⟨by decide, by decide,
   (C8_kfold_partition 12 samplePerm12 (by decide) (by decide)).1,
   (C8_kfold_partition 12 samplePerm12 (by decide) (by decide)).2.1,
   (C8_kfold_partition 12 samplePerm12 (by decide) (by decide)).2.2.1⟩

/-- C9: for a path whose filename splits on underscores into an age segment,
a gender segment and a remainder, make_db records the integer value of the
first segment as the age and the integer value of the second segment XORed
with 1 as the gender. -/
theorem C9_make_db_parsing (path a g : PyStr) (rest : List PyStr) (age code : ℕ)
    (hsplit : pySplit '_' ((pySplit '/' path).getLastD []) = a :: g :: rest)
    (hage : pyInt a = some age) (hcode : pyInt g = some code) :
    make_db_age path = some age ∧ make_db_gender path = some (code ^^^ 1) := by
  unfold make_db_age make_db_gender
  rw [hsplit]
  simp [hage, hcode]

/-- C9 witness: the parsing theorem on the concrete path
UTKface/part1/25_0_x.jpg — age 25, filename gender code 0, recorded
gender 0 XOR 1 = 1. -/
theorem C9_make_db_parsing_witness :
    pySplit '_' ((pySplit '/' samplePath).getLastD [])
      = [['2', '5'], ['0'], ['x', '.', 'j', 'p', 'g']] ∧
    pyInt ['2', '5'] = some 25 ∧ pyInt ['0'] = some 0 ∧
    make_db_age samplePath = some 25 ∧ make_db_gender samplePath = some (0 ^^^ 1) :=
  ⟨by decide, by decide, by decide,
   (C9_make_db_parsing samplePath ['2', '5'] ['0'] [['x', '.', 'j', 'p', 'g']] 25 0
     (by decide) (by decide) (by decide)).1,
   (C9_make_db_parsing samplePath ['2', '5'] ['0'] [['x', '.', 'j', 'p', 'g']] 25 0
     (by decide) (by decide) (by decide)).2⟩

/-- C10: both components of get_metrics divide by the length of the
respective predicted array, so each is a defined numeric result exactly when
that predicted array is non-empty: the age error is none precisely for an
empty age-prediction array and the gender accuracy is none precisely for an
empty gender-prediction array. -/
theorem C10_get_metrics_defined_iff (agePred genderPred ageTrue genderTrue : List ℤ) :
    ((get_metrics agePred genderPred ageTrue genderTrue).1 = none
      ↔ agePred.length = 0) ∧
    ((get_metrics agePred genderPred ageTrue genderTrue).2 = none
      ↔ genderPred.length = 0) := by
  constructor <;>
    · simp only [get_metrics, npDiv]
      split <;> simp_all

end AgeGender
